import Mathlib

/-!
Verification of the predictive repair agent
(`scripts/predictive_repair_agent.py`).

The agent's data model and the pure parts of its algorithms are embedded
shallowly:

* Python floats are modelled as rationals (`ℚ`), Python ints as `ℤ`/`ℕ`.
* `ServiceMetrics` mirrors the dataclass of the same name.
* The Q-table (a Python dict keyed by `(state, action)` with default `0.0`
  on missing keys) is modelled as an association list with a
  defaulting lookup `qget`; an update conses the new binding, which has
  the same lookup semantics as a dict overwrite.
* The sklearn estimators are external library code; a "trained" model is
  represented by the training data handed to `fit`, which is all the
  agent's own code determines about it.
* `deque(maxlen=N)` is modelled by `dequeAppend`, which drops the oldest
  element when the buffer is full.
-/

/-- Mirror of the `ServiceMetrics` dataclass: one point-in-time metrics
snapshot for one service. -/
structure ServiceMetrics where
  timestamp : Nat
  service : String
  cpu_usage : ℚ
  memory_usage : ℚ
  disk_usage : ℚ
  network_errors : ℤ
  restart_count : ℤ
  health_status : String
  response_time : ℚ
  error_rate : ℚ
  request_rate : ℚ
deriving DecidableEq, Repr

/-- `ServiceMetrics.to_features`: the 9-entry feature vector, in the order
the code lists the fields; `health_status` is binarized
(`1 if self.health_status == 'unhealthy' else 0`). -/
def toFeatures (m : ServiceMetrics) : List ℚ :=
  [ m.cpu_usage
  , m.memory_usage
  , m.disk_usage
  , (m.network_errors : ℚ)
  , (m.restart_count : ℚ)
  , if m.health_status = "unhealthy" then 1 else 0
  , m.response_time
  , m.error_rate
  , m.request_rate ]

/-- `PredictiveRepairAgent.get_state`: discretize a snapshot into the RL
state key `f"{service}_{cpu_state}_{mem_state}_{health_state}"`. -/
def getState (m : ServiceMetrics) : String :=
  let cpu_state : String :=
    if m.cpu_usage > 7/10 then "high" else if m.cpu_usage > 3/10 then "medium" else "low"
  let mem_state : String :=
    if m.memory_usage > 7/10 then "high" else if m.memory_usage > 3/10 then "medium" else "low"
  let health_state : String :=
    if m.health_status = "unhealthy" then "unhealthy" else "healthy"
  m.service ++ "_" ++ cpu_state ++ "_" ++ mem_state ++ "_" ++ health_state

/-- `self.learning_rate = 0.1`. -/
def learning_rate : ℚ := 1/10

/-- `self.epsilon = 0.1`. -/
def epsilon : ℚ := 1/10

/-- `PredictiveRepairAgent.calculate_reward`, translated branch by branch:
`-10` on failure, `0` when no post-action snapshot exists, otherwise the
sum of the conditional bonuses and penalties in the order the code adds
them. -/
def calculate_reward (before : ServiceMetrics) (after : Option ServiceMetrics)
    (success : Bool) : ℚ :=
  match success, after with
  | false, _ => -10
  | true, none => 0
  | true, some a =>
      (if a.cpu_usage < before.cpu_usage then 5 * (before.cpu_usage - a.cpu_usage) else 0)
      + (if a.memory_usage < before.memory_usage then 5 * (before.memory_usage - a.memory_usage) else 0)
      + (if a.error_rate < before.error_rate then 10 * (before.error_rate - a.error_rate) else 0)
      + (if a.response_time < before.response_time then 3 * (before.response_time - a.response_time) else 0)
      + (if a.health_status = "healthy" then 5 else 0)
      - (if a.cpu_usage > before.cpu_usage then 3 else 0)
      - (if a.memory_usage > before.memory_usage then 3 else 0)

/-- The reward function as the specification words it: clamped deltas
`max 0 (before - after)` weighted 5/5/10/3, flat penalties for a strict
cpu or memory increase, flat bonus for a healthy outcome. -/
def rewardSpec (before : ServiceMetrics) (after : Option ServiceMetrics)
    (success : Bool) : ℚ :=
  match success, after with
  | false, _ => -10
  | true, none => 0
  | true, some a =>
      5 * max 0 (before.cpu_usage - a.cpu_usage)
      + 5 * max 0 (before.memory_usage - a.memory_usage)
      + 10 * max 0 (before.error_rate - a.error_rate)
      + 3 * max 0 (before.response_time - a.response_time)
      - (if before.cpu_usage < a.cpu_usage then 3 else 0)
      - (if before.memory_usage < a.memory_usage then 3 else 0)
      + (if a.health_status = "healthy" then 5 else 0)

/-- The Q-table: `(state, action) → float`, missing keys read as `0.0`. -/
abbrev QTable := List ((String × String) × ℚ)

/-- `self.q_table.get((state, action), 0.0)`. -/
def qget (q : QTable) (k : String × String) : ℚ :=
  (q.lookup k).getD 0

/-- `PredictiveRepairAgent.update_q_value`: one-step rule
`Q ← Q + α · (reward − Q)`; the new binding shadows any old one. -/
def update_q_value (q : QTable) (state action : String) (reward : ℚ) : QTable :=
  let current_q := qget q (state, action)
  ((state, action), current_q + learning_rate * (reward - current_q)) :: q

/-- `self.actions`, in declaration order. -/
def actions : List String :=
  ["restart", "scale_up", "scale_down", "clear_cache", "optimize_config",
   "rollback", "no_action"]

/-- Python's `max(iterable, key=f)` over `a :: l`: scan left to right,
replacing the current best only on a strictly larger key. -/
def pyMax (f : α → ℚ) (a : α) (l : List α) : α :=
  l.foldl (fun best cand => if f cand > f best then cand else best) a

/-- `PredictiveRepairAgent.select_action`. `rand` stands for the value of
`np.random.random()` and `randChoice` for the uniform choice made on the
exploration branch; the greedy branch is
`max(q_values, key=q_values.get)` over the actions in order. -/
def select_action (q : QTable) (state : String) (eps rand : ℚ)
    (randChoice : String) : String :=
  if rand < eps then randChoice
  else pyMax (fun a => qget q (state, a)) (actions.headD "") actions.tail

/-- Greedy selection as the specification words it: the first element of
the list attaining the maximum key, so ties are broken by enumeration
order. -/
def firstArgmax (f : α → ℚ) : α → List α → α
  | a, [] => a
  | a, c :: t => if f a < f (firstArgmax f c t) then firstArgmax f c t else a

/-- One append to `deque(maxlen=cap)` holding `s` (oldest first): appended
at the newest end, evicting the oldest element when the buffer is full. -/
def dequeAppend (cap : Nat) (s : List α) (x : α) : List α :=
  if s.length < cap then s ++ [x] else s.drop 1 ++ [x]

/-- `self.failure_history[-1000:]`: the failures record persisted by
`save_history`, capped to the most recent 1000 entries. -/
def savedFailures (failures : List α) : List α :=
  failures.drop (failures.length - 1000)

/-- The label computed inside `train_models` for the snapshot at index `i`
of the stored window: 1 when, among the next five entries of the window
(`list(self.metrics_history)[i+1:i+6]`), some entry is for the same
service and is unhealthy or shows a strictly larger restart count. -/
def trainingLabel (hist : List ServiceMetrics) (i : Nat)
    (metric : ServiceMetrics) : Nat :=
  if ((hist.drop (i+1)).take 5).any (fun m =>
        m.service == metric.service &&
          (m.health_status == "unhealthy"
            || decide (metric.restart_count < m.restart_count)))
  then 1 else 0

/-- The label vector `y` built by `train_models`: one label per entry of
`list(self.metrics_history)[:-10]`, i.e. the window minus its 10 most
recent snapshots. -/
def trainingLabels (hist : List ServiceMetrics) : List Nat :=
  (hist.take (hist.length - 10)).enum.map (fun p => trainingLabel hist p.1 p.2)

/-- The feature matrix `X` built by `train_models`, over the same
truncated window. -/
def trainingFeatures (hist : List ServiceMetrics) : List (List ℚ) :=
  (hist.take (hist.length - 10)).map toFeatures

/-- A fitted `RandomForestClassifier` is external library state; the agent
determines it only through the `(X, y)` pairs given to `fit`, so it is
represented by them. -/
abbrev Classifier := List (List ℚ × Nat)

/-- A fitted `IsolationForest`, represented by the feature rows given to
`fit`. -/
abbrev Detector := List (List ℚ)

/-- A fitted `StandardScaler`, represented by the feature rows given to
`fit_transform`. -/
abbrev ScalerT := List (List ℚ)

/-- The agent's model group: `self.failure_predictor`,
`self.anomaly_detector`, `self.scaler`, each `None` until assigned. -/
structure AgentModels where
  failure_predictor : Option Classifier
  anomaly_detector : Option Detector
  scaler : Option ScalerT
deriving DecidableEq, Repr

/-- `PredictiveRepairAgent.train_models`: early return leaving the state
untouched below 100 stored snapshots, otherwise fit and assign the
scaler, the failure predictor (on the features paired with their labels)
and the anomaly detector. -/
def trainModels (st : AgentModels) (hist : List ServiceMetrics) : AgentModels :=
  if hist.length < 100 then st
  else
    { failure_predictor := some ((trainingFeatures hist).zip (trainingLabels hist))
    , anomaly_detector := some (trainingFeatures hist)
    , scaler := some (trainingFeatures hist) }

/-- The model files that may exist under `self.model_path`; `some c`
means the file exists and deserializes to `c`. -/
structure FileEnv where
  predictorFile : Option Classifier
  anomalyFile : Option Detector
  scalerFile : Option ScalerT
deriving Repr

/-- `PredictiveRepairAgent.load_models`: each component is loaded
independently, guarded by its own `os.path.exists` check; a missing file
leaves that component as it was. -/
def load_models (st : AgentModels) (env : FileEnv) : AgentModels :=
  { failure_predictor :=
      match env.predictorFile with
      | some c => some c
      | none => st.failure_predictor
  , anomaly_detector :=
      match env.anomalyFile with
      | some d => some d
      | none => st.anomaly_detector
  , scaler :=
      match env.scalerFile with
      | some s => some s
      | none => st.scaler }

/-- A snapshot with neutral metric values, used for concrete instances. -/
def mkSnap (i : Nat) : ServiceMetrics :=
  { timestamp := i
  , service := "svc"
  , cpu_usage := 0
  , memory_usage := 0
  , disk_usage := 0
  , network_errors := 0
  , restart_count := 0
  , health_status := "healthy"
  , response_time := 0
  , error_rate := 0
  , request_rate := 0 }

/-- A concrete stored window of 100 snapshots. -/
def hist100 : List ServiceMetrics := (List.range 100).map mkSnap

/- ### Helper lemmas -/

lemma if_lt_eq_max_mul (c x y : ℚ) :
    (if y < x then c * (x - y) else 0) = c * max 0 (x - y) := by
  by_cases h : y < x
  · rw [if_pos h, max_eq_right (by linarith)]
  · rw [if_neg h, max_eq_left (by linarith), mul_zero]

lemma le_firstArgmax (f : α → ℚ) (a : α) (l : List α) :
    f a ≤ f (firstArgmax f a l) := by
  cases l with
  | nil => simp [firstArgmax]
  | cons c t =>
      simp only [firstArgmax]
      split
      · linarith
      · exact le_refl _

lemma firstArgmax_le (f : α → ℚ) (a : α) (l : List α) :
    ∀ x ∈ a :: l, f x ≤ f (firstArgmax f a l) := by
  induction l generalizing a with
  | nil => intro x hx; simp at hx; subst hx; simp [firstArgmax]
  | cons c t ih =>
      intro x hx
      simp only [firstArgmax]
      rcases List.mem_cons.mp hx with rfl | hx
      · exact le_firstArgmax f x (c :: t)
      · have hx' := ih c x hx
        split
        · exact hx'
        · linarith

lemma firstArgmax_mem (f : α → ℚ) (a : α) (l : List α) :
    firstArgmax f a l ∈ a :: l := by
  induction l generalizing a with
  | nil => simp [firstArgmax]
  | cons c t ih =>
      simp only [firstArgmax]
      split
      · exact List.mem_cons_of_mem a (ih c)
      · exact List.mem_cons_self a _

lemma firstArgmax_cons_absorb (f : α → ℚ) (a c : α) (t : List α)
    (h : f c ≤ f a) :
    firstArgmax f a t =
      if f a < f (firstArgmax f c t) then firstArgmax f c t else a := by
  cases t with
  | nil =>
      simp only [firstArgmax]
      rw [if_neg (by linarith)]
  | cons d u =>
      simp only [firstArgmax]
      by_cases h1 : f c < f (firstArgmax f d u)
      · rw [if_pos h1]
      · rw [if_neg h1]
        by_cases h2 : f a < f (firstArgmax f d u)
        · exact absurd (lt_of_le_of_lt h h2) h1
        · rw [if_neg h2, if_neg (by linarith)]

lemma pyMax_eq_firstArgmax (f : α → ℚ) (l : List α) :
    ∀ a, pyMax f a l = firstArgmax f a l := by
  induction l with
  | nil => intro a; rfl
  | cons c t ih =>
      intro a
      have step : pyMax f a (c :: t) = pyMax f (if f c > f a then c else a) t := by
        simp [pyMax, List.foldl_cons]
      rw [step, ih]
      by_cases h : f c > f a
      · rw [if_pos h]
        have hc := le_firstArgmax f c t
        simp only [firstArgmax]
        rw [if_pos (by linarith)]
      · rw [if_neg h]
        exact firstArgmax_cons_absorb f a c t (by linarith)

lemma trainingLabels_length (hist : List ServiceMetrics) :
    (trainingLabels hist).length = hist.length - 10 := by
  simp only [trainingLabels, List.length_map, List.enum_length, List.length_take]
  omega

lemma trainingLabel_eq_one_iff (hist : List ServiceMetrics) (i : Nat)
    (m : ServiceMetrics) :
    trainingLabel hist i m = 1 ↔
      ∃ x ∈ (hist.drop (i+1)).take 5,
        x.service = m.service
        ∧ (x.health_status = "unhealthy" ∨ m.restart_count < x.restart_count) := by
  simp only [trainingLabel]
  split
  · next h =>
      simp only [List.any_eq_true, Bool.and_eq_true, Bool.or_eq_true, beq_iff_eq,
        decide_eq_true_eq] at h
      exact iff_of_true rfl h
  · next h =>
      simp only [List.any_eq_true, Bool.and_eq_true, Bool.or_eq_true, beq_iff_eq,
        decide_eq_true_eq] at h
      exact iff_of_false (by decide) h

lemma foldl_dequeAppend (N : Nat) (hN : 0 < N) :
    ∀ (xs s : List α), s.length ≤ N →
      List.foldl (dequeAppend N) s xs = (s ++ xs).drop ((s ++ xs).length - N) := by
  intro xs
  induction xs with
  | nil =>
      intro s hs
      simp [Nat.sub_eq_zero_of_le hs]
  | cons x t ih =>
      intro s hs
      rw [List.foldl_cons]
      by_cases h : s.length < N
      · have hd : dequeAppend N s x = s ++ [x] := by rw [dequeAppend, if_pos h]
        rw [hd, ih (s ++ [x]) (by simp; omega)]
        simp [List.append_assoc]
      · have hlen : s.length = N := le_antisymm hs (not_lt.mp h)
        have hd : dequeAppend N s x = s.drop 1 ++ [x] := by rw [dequeAppend, if_neg h]
        rw [hd, ih (s.drop 1 ++ [x]) (by simp [List.length_drop]; omega)]
        have e1 : (s.drop 1 ++ [x]) ++ t = (s ++ x :: t).drop 1 := by
          rw [List.drop_append_of_le_length (by omega), List.append_assoc]
          rfl
        rw [e1, List.drop_drop]
        congr 1
        simp only [List.length_drop, List.length_append, List.length_cons]
        omega

/-- A snapshot whose service is unhealthy, for concrete instances. -/
def snapUnhealthy : ServiceMetrics := { mkSnap 0 with health_status := "unhealthy" }

/-- A snapshot whose service is down, for concrete instances. -/
def snapDown : ServiceMetrics := { mkSnap 1 with health_status := "down" }

/-- A model file environment in which only the classifier artifact exists. -/
def envOnlyPredictor : FileEnv :=
  { predictorFile := some [], anomalyFile := none, scalerFile := none }

/-- The agent's model state right after construction: nothing trained. -/
def noModels : AgentModels :=
  { failure_predictor := none, anomaly_detector := none, scaler := none }

/-- C1: for every pair of snapshots and success flag, `calculate_reward`
returns exactly the specification's reward: −10 on failure, 0 when no
post-action snapshot exists, otherwise the clamped weighted deltas
(5·cpu, 5·memory, 10·error-rate, 3·response-time), minus 3 for a strict
cpu increase, minus 3 for a strict memory increase, plus 5 when the
post-action health is healthy. -/
theorem calculate_reward_matches_spec (before : ServiceMetrics)
    (after : Option ServiceMetrics) (success : Bool) :
    calculate_reward before after success = rewardSpec before after success := by
  cases success with
  | false => cases after <;> rfl
  | true =>
      cases after with
      | none => rfl
      | some a =>
          simp only [calculate_reward, rewardSpec, gt_iff_lt, if_lt_eq_max_mul]
          ring

/-- C2: one call to `update_q_value` stores `Q₀ + α·(R − Q₀)` under the
(state, action) key — a one-step rule with no future-value term — hence
the distance to the reward contracts by exactly the factor `1 − α`;
unseen keys read as Q-value 0. -/
theorem update_q_value_law (q : QTable) (s a : String) (r : ℚ) :
    qget (update_q_value q s a r) (s, a)
        = qget q (s, a) + learning_rate * (r - qget q (s, a))
    ∧ |qget (update_q_value q s a r) (s, a) - r|
        = (1 - learning_rate) * |qget q (s, a) - r|
    ∧ (∀ k, q.lookup k = none → qget q k = 0) := by
  have h1 : qget (update_q_value q s a r) (s, a)
      = qget q (s, a) + learning_rate * (r - qget q (s, a)) := by
    simp [update_q_value, qget, List.lookup]
  refine ⟨h1, ?_, ?_⟩
  · rw [h1]
    have h2 : qget q (s, a) + learning_rate * (r - qget q (s, a)) - r
        = (1 - learning_rate) * (qget q (s, a) - r) := by
      unfold learning_rate; ring
    rw [h2, abs_mul, abs_of_nonneg (by norm_num [learning_rate] : (0:ℚ) ≤ 1 - learning_rate)]
  · intro k hk
    simp [qget, hk]

/-- C2 witness: an unseen key reads as 0 in the empty Q-table. -/
theorem update_q_value_law_witness : qget [] ("s", "restart") = 0 :=
  (update_q_value_law [] "s" "restart" 0).2.2 ("s", "restart") rfl

/-- C3: with ε = 0 and any non-negative draw, `select_action` ignores the
random choice and returns the first action of the fixed 7-action list
attaining the maximum Q-value for the state (unseen pairs reading as 0
through `qget`): it is in the action set and its Q-value dominates every
action's. -/
theorem select_action_zero_eps_greedy (q : QTable) (state : String)
    (rand : ℚ) (hr : 0 ≤ rand) (randChoice : String) :
    select_action q state 0 rand randChoice
        = firstArgmax (fun a => qget q (state, a)) "restart" actions.tail
    ∧ select_action q state 0 rand randChoice ∈ actions
    ∧ ∀ a ∈ actions, qget q (state, a)
        ≤ qget q (state, select_action q state 0 rand randChoice) := by
  have hnot : ¬ rand < (0:ℚ) := not_lt.mpr hr
  have hhead : actions.headD "" = "restart" := rfl
  have hsel : select_action q state 0 rand randChoice
      = pyMax (fun a => qget q (state, a)) "restart" actions.tail := by
    unfold select_action
    rw [if_neg hnot, hhead]
  have hcons : "restart" :: actions.tail = actions := rfl
  rw [hsel, pyMax_eq_firstArgmax]
  refine ⟨rfl, ?_, ?_⟩
  · have hm := firstArgmax_mem (fun a => qget q (state, a)) "restart" actions.tail
    rwa [hcons] at hm
  · intro a ha
    exact firstArgmax_le (fun x => qget q (state, x)) "restart" actions.tail a
      (by rwa [hcons])

/-- C3 witness: at ε = 0 with draw 0 the selected action belongs to the
fixed action set. -/
theorem select_action_zero_eps_greedy_witness :
    (0:ℚ) ≤ 0 ∧ select_action [] "s" 0 0 "x" ∈ actions :=
  ⟨le_refl 0, (select_action_zero_eps_greedy [] "s" 0 (le_refl 0) "x").2.1⟩

/-- C7: the metrics store is strictly FIFO-bounded: for capacity N > 0,
after N+1 appends into the empty store the content is exactly the last N
appended snapshots oldest-to-newest (so a non-duplicated earliest
snapshot is gone), a full store evicts exactly its oldest element on
append, and a non-full store just appends. -/
theorem metricsStore_fifo (N : Nat) (hN : 0 < N) (xs : List α)
    (hlen : xs.length = N + 1) :
    List.foldl (dequeAppend N) [] xs = xs.drop 1
    ∧ (xs.Nodup → ∀ x ∈ xs.take 1, x ∉ List.foldl (dequeAppend N) [] xs)
    ∧ (∀ (s : List α) (y : α), s.length = N → dequeAppend N s y = s.drop 1 ++ [y])
    ∧ (∀ (s : List α) (y : α), s.length < N → dequeAppend N s y = s ++ [y]) := by
  have hfold : List.foldl (dequeAppend N) [] xs = xs.drop 1 := by
    have h := foldl_dequeAppend N hN xs [] (by simp)
    rw [List.nil_append] at h
    rw [h, hlen]
    congr 1
    omega
  refine ⟨hfold, ?_, ?_, ?_⟩
  · intro hnd x hx
    rw [hfold]
    have hdisj := List.disjoint_take_drop hnd (le_refl 1)
    exact fun hmem => hdisj hx hmem
  · intro s y hs
    rw [dequeAppend, if_neg (by omega)]
  · intro s y hs
    rw [dequeAppend, if_pos hs]

/-- C7 witness: with capacity 2, appending 0, 1, 2 into the empty store
leaves exactly the last two elements. -/
theorem metricsStore_fifo_witness :
    List.foldl (dequeAppend 2) ([] : List Nat) [0, 1, 2] = [1, 2] :=
  (metricsStore_fifo 2 (by decide) [0, 1, 2] (by decide)).1

/-- C8: feature extraction always yields a 9-entry vector, whose health
entry is 1 exactly when the snapshot's health status is unhealthy and 0
otherwise; being a function of the snapshot alone, it is deterministic. -/
theorem toFeatures_spec (m : ServiceMetrics) :
    (toFeatures m).length = 9
    ∧ ((toFeatures m)[5]? = some 1 ↔ m.health_status = "unhealthy")
    ∧ (m.health_status ≠ "unhealthy" → (toFeatures m)[5]? = some 0) := by
  refine ⟨rfl, ?_, ?_⟩
  · by_cases h : m.health_status = "unhealthy"
    · simp [toFeatures, h]
    · simp [toFeatures, h]
  · intro h
    simp [toFeatures, h]

/-- C8 witness: an unhealthy snapshot's health feature is 1. -/
theorem toFeatures_spec_witness : (toFeatures snapUnhealthy)[5]? = some 1 :=
  (toFeatures_spec snapUnhealthy).2.1.mpr rfl

/-- C9: the persisted failures record keeps exactly the most recent
min(n, 1000) entries of an n-entry failure history, in order. -/
theorem save_history_cap (l : List α) :
    (savedFailures l).length = min l.length 1000
    ∧ ∀ i : Nat, (savedFailures l)[i]? = l[(l.length - min l.length 1000) + i]? := by
  constructor
  · simp only [savedFailures, List.length_drop]
    omega
  · intro i
    simp only [savedFailures]
    rw [List.getElem?_drop]
    have h : l.length - 1000 + i = l.length - min l.length 1000 + i := by omega
    rw [h]

/-- C10: a snapshot whose health status is anything other than unhealthy
(e.g. down or unknown) gets health feature 0, and both its feature vector
and its RL state key coincide with those of the same snapshot marked
healthy. -/
theorem down_unknown_like_healthy (m : ServiceMetrics)
    (h : m.health_status ≠ "unhealthy") :
    (toFeatures m)[5]? = some 0
    ∧ toFeatures m = toFeatures { m with health_status := "healthy" }
    ∧ getState m = getState { m with health_status := "healthy" } := by
  have hne : ("healthy" : String) ≠ "unhealthy" := by decide
  exact ⟨by simp [toFeatures, h], by simp [toFeatures, h, hne],
    by simp [getState, h, hne]⟩

/-- C10 witness: a down snapshot's health feature is 0. -/
theorem down_unknown_like_healthy_witness : (toFeatures snapDown)[5]? = some 0 :=
  (down_unknown_like_healthy snapDown (by decide)).1

/-- C4 counterexample: on a 100-snapshot window the training set built by
`train_models` has 90 entries — the window minus its 10 most recent
snapshots — not the 95 that excluding only the most recent K = 5 would
leave. -/
theorem trainingLabels_excludes_ten_not_five :
    hist100.length = 100 ∧ (trainingLabels hist100).length ≠ hist100.length - 5 := by
  have hlen : hist100.length = 100 := by simp [hist100]
  refine ⟨hlen, ?_⟩
  rw [trainingLabels_length, hlen]
  decide

/-- C4 (amended): the training set has one labelled example per window
entry except the 10 most recent, and the label of the snapshot at index i
is 1 exactly when, among the next five entries of the stored window, some
entry is for the same service and is unhealthy or shows a strictly larger
restart count; every label is 0 or 1. -/
theorem trainingLabels_spec (hist : List ServiceMetrics) (i : Nat)
    (m : ServiceMetrics) (hi : i < hist.length - 10) (hm : hist[i]? = some m) :
    (trainingLabels hist).length = hist.length - 10
    ∧ ((trainingLabels hist)[i]? = some 1 ↔
        ∃ x ∈ (hist.drop (i+1)).take 5,
          x.service = m.service
          ∧ (x.health_status = "unhealthy" ∨ m.restart_count < x.restart_count))
    ∧ ((trainingLabels hist)[i]? = some 1 ∨ (trainingLabels hist)[i]? = some 0) := by
  have h1 : (hist.take (hist.length - 10))[i]? = some m := by
    rw [List.getElem?_take_of_lt hi]
    exact hm
  have hget : (trainingLabels hist)[i]? = some (trainingLabel hist i m) := by
    simp [trainingLabels, List.getElem?_map, List.getElem?_enum, h1]
  refine ⟨trainingLabels_length hist, ?_, ?_⟩
  · rw [hget]
    simp only [Option.some.injEq]
    exact trainingLabel_eq_one_iff hist i m
  · rw [hget]
    unfold trainingLabel
    split
    · left; rfl
    · right; rfl

/-- C4 witness: the concrete 100-snapshot window yields a 90-entry label
vector. -/
theorem trainingLabels_spec_witness :
    (trainingLabels hist100).length = hist100.length - 10 :=
  (trainingLabels_spec hist100 0 (mkSnap 0)
    (by simp [hist100]) (by simp [hist100])).1

/-- C5 counterexample: starting from no models, loading when only the
classifier artifact file exists sets the classifier but leaves the
detector and scaler unset — the three are neither all set nor all
unset. -/
theorem load_models_independent_counterexample :
    ¬ (((load_models noModels envOnlyPredictor).failure_predictor.isSome = true
        ∧ (load_models noModels envOnlyPredictor).anomaly_detector.isSome = true
        ∧ (load_models noModels envOnlyPredictor).scaler.isSome = true)
      ∨ ((load_models noModels envOnlyPredictor).failure_predictor = none
        ∧ (load_models noModels envOnlyPredictor).anomaly_detector = none
        ∧ (load_models noModels envOnlyPredictor).scaler = none)) := by
  decide

/-- C5 (amended): training leaves the model group unchanged or sets the
classifier, detector and scaler together, but loading updates each
component independently: after a load a component is set exactly when its
file exists or it was already set, so a load can leave the group
populated only in part. -/
theorem model_group_publication (st : AgentModels) (hist : List ServiceMetrics)
    (env : FileEnv) :
    (trainModels st hist = st
      ∨ ((trainModels st hist).failure_predictor.isSome = true
        ∧ (trainModels st hist).anomaly_detector.isSome = true
        ∧ (trainModels st hist).scaler.isSome = true))
    ∧ (load_models st env).failure_predictor.isSome
        = (env.predictorFile.isSome || st.failure_predictor.isSome)
    ∧ (load_models st env).anomaly_detector.isSome
        = (env.anomalyFile.isSome || st.anomaly_detector.isSome)
    ∧ (load_models st env).scaler.isSome
        = (env.scalerFile.isSome || st.scaler.isSome) := by
  refine ⟨?_, ?_, ?_, ?_⟩
  · unfold trainModels
    split
    · left; rfl
    · right; exact ⟨rfl, rfl, rfl⟩
  · cases hp : env.predictorFile <;> simp [load_models, hp]
  · cases hp : env.anomalyFile <;> simp [load_models, hp]
  · cases hp : env.scalerFile <;> simp [load_models, hp]

/-- C6: `train_models` below 100 stored snapshots leaves the classifier,
detector and scaler all unchanged (the previously published group stays
in place); at 100 or more it leaves all three simultaneously non-null. -/
theorem trainModels_guard (st : AgentModels) (hist : List ServiceMetrics) :
    (hist.length < 100 → trainModels st hist = st)
    ∧ (100 ≤ hist.length →
        (trainModels st hist).failure_predictor.isSome = true
        ∧ (trainModels st hist).anomaly_detector.isSome = true
        ∧ (trainModels st hist).scaler.isSome = true) := by
  constructor
  · intro h
    unfold trainModels
    rw [if_pos h]
  · intro h
    unfold trainModels
    rw [if_neg (not_lt.mpr h)]
    exact ⟨rfl, rfl, rfl⟩

/-- C6 witness: an empty window leaves the untrained state untouched,
while the concrete 100-snapshot window yields a trained scaler. -/
theorem trainModels_guard_witness :
    trainModels noModels [] = noModels
    ∧ (trainModels noModels hist100).scaler.isSome = true :=
  ⟨(trainModels_guard noModels []).1 (by decide),
   ((trainModels_guard noModels hist100).2 (by simp [hist100])).2.2⟩
